import Mathlib

/-!
Verification of the jester-mcp code-execution server.

This file gives a shallow embedding, in Lean 4, of the parts of
`src/standalone_mcp_server.py` and `src/mcp_inspector.py` that the
specification's testable properties talk about:

* the `PodmanCodeExecutor` execution engine (`execute_code` and its
  isolation / persistent / development / fallback paths),
* the `_analyze_security` static scanner,
* `safe_create_file`,
* the `MCPInspector` ring buffer and metrics (`log_message`,
  `_update_metrics`),
* the `main` stdin/stdout JSON-RPC loop and its handlers.

Conventions of the embedding:

* Python floats (timestamps, durations, averages) are modelled as exact
  rationals `ℚ`; the spec's "within floating-point tolerance" becomes
  exact equality over `ℚ`.
* External effects (subprocess runs, the wall clock, `uuid`, filesystem
  writes, exceptions raised by library calls) are supplied by explicit
  environment/oracle records, universally quantified in the theorems.
* JSON values are the inductive `JValue`; Python `dict.get` on a
  non-dict, which raises `AttributeError`, is modelled with
  `Except String`.
* Python's substring test `pat in s` and `s.startswith(p)` are modelled
  on the character lists of the strings.
-/

namespace JesterMCP

/-! ## Strings and JSON values -/

/-- Python's substring test `pat in s`, on the code-point lists. -/
def strContains (s pat : String) : Bool := decide (pat.toList <:+: s.toList)

/-- Python's `s.startswith(pat)`, on the code-point lists. -/
def strStartsWith (s pat : String) : Bool := decide (pat.toList <+: s.toList)

/-- Python's `line.strip()`: remove leading and trailing whitespace. -/
def pyStrip (s : String) : String :=
  ⟨((s.toList.dropWhile Char.isWhitespace).reverse.dropWhile Char.isWhitespace).reverse⟩

/-- JSON values, as produced by `json.loads`.  Numbers are modelled as
integers (no claim involves fractional JSON literals); a Python `None`
is identified with `null`. -/
inductive JValue where
  | null
  | bool (b : Bool)
  | num (n : Int)
  | str (s : String)
  | arr (elems : List JValue)
  | obj (fields : List (String × JValue))

mutual

/-- Structural equality of JSON values (Python `==` on parsed JSON). -/
def JValue.beq : JValue → JValue → Bool
  | .null, .null => true
  | .bool a, .bool b => a == b
  | .num a, .num b => a == b
  | .str a, .str b => a == b
  | .arr a, .arr b => beqArr a b
  | .obj a, .obj b => beqObj a b
  | _, _ => false

def beqArr : List JValue → List JValue → Bool
  | [], [] => true
  | x :: xs, y :: ys => x.beq y && beqArr xs ys
  | _, _ => false

def beqObj : List (String × JValue) → List (String × JValue) → Bool
  | [], [] => true
  | (k, v) :: xs, (l, w) :: ys => k == l && v.beq w && beqObj xs ys
  | _, _ => false

end

/-- First-match association-list lookup (Python dict lookup; `json.loads`
yields unique keys). -/
def lookupField : List (String × JValue) → String → Option JValue
  | [], _ => none
  | (k', v) :: rest, k => if k' = k then some v else lookupField rest k

/-- Python `d.get(k)` on a JSON object; `none` when the key is absent. -/
def JValue.lookup : JValue → String → Option JValue
  | .obj fields, k => lookupField fields k
  | _, _ => none

/-- Python `d.get(k, default)`: the default applies only when the key is
absent (a present `null` is returned as `null`). -/
def JValue.getD (j : JValue) (k : String) (default : JValue) : JValue :=
  match j.lookup k with
  | some v => v
  | none => default

/-- Python `d.get(k)` where the caller treats a present `null` the same
as an absent key (both are the Python value `None`). -/
def JValue.getOpt (j : JValue) (k : String) : JValue :=
  j.getD k JValue.null

/-- Python truthiness of a JSON-shaped value (`if x:`). -/
def JValue.truthy : JValue → Bool
  | .null => false
  | .bool b => b
  | .num n => n != 0
  | .str s => s != ""
  | .arr xs => !xs.isEmpty
  | .obj fs => !fs.isEmpty

/-- Python `request.get(k)`, raising `AttributeError` when the receiver is not
a dict (modelled as `Except.error`). -/
def tryGet (j : JValue) (k : String) : Except String (Option JValue) :=
  match j with
  | .obj _ => .ok (j.lookup k)
  | _ => .error "AttributeError: get"

/-- A rough rendering of Python `str(v)`, used only inside diagnostic
message texts (never inspected by a claim). -/
def JValue.pyStr : JValue → String
  | .null => "None"
  | .bool true => "True"
  | .bool false => "False"
  | .num n => toString n
  | .str s => s
  | .arr _ => "[...]"
  | .obj _ => "{...}"

/-! ## ExecutionResult and the execution engine

Embedding of `PodmanCodeExecutor` (`standalone_mcp_server.py`, lines
31-599).  Subprocess interactions are supplied by an `EngineEnv` oracle.
-/

/-- The `ExecutionResult` dataclass (lines 31-40), with the source's
field defaults. -/
structure ExecutionResult where
  success : Bool
  output : String
  error : String
  execution_time : ℚ
  memory_usage : Int
  container_id : Option String := none
  security_level : String := "container"
  method : String := "podman"

/-- Outcome of one awaited subprocess (`create_subprocess_exec` plus
`communicate`, possibly under `asyncio.wait_for`). -/
inductive ProcOutcome where
  | completed (returncode : Int) (stdout stderr : String)
  | timedOut
  | raised (msg : String)

/-- The engine configuration `_default_config` (lines 54-65); only the
fields the embedded paths read. -/
structure EngineConfig where
  timeout : ℚ := 30
  memory_limit : String := "128m"
  cpu_limit : String := "0.5"
  tmp_size : String := "64m"

def defaultConfig : EngineConfig := {}

/-- Embeds `_initialize_base_images` (lines 67-75): the languages with a base
image; `base_images[language]` raises `KeyError` outside this set. -/
def base_images : List (String × String) :=
  [("python", "docker.io/python:3.11-alpine"),
   ("javascript", "docker.io/node:18-alpine"),
   ("bash", "docker.io/alpine:latest"),
   ("rust", "docker.io/rust:1.70-alpine"),
   ("go", "docker.io/golang:1.20-alpine")]

/-- Embeds `_get_file_extension` (lines 397-406). -/
def get_file_extension (language : String) : String :=
  match lookupField [("python", .str "py"), ("javascript", .str "js"),
    ("bash", .str "sh"), ("rust", .str "rs"), ("go", .str "go")] language with
  | some (.str e) => e
  | _ => "txt"

/-- Environment for one `execute_code` call: results of the subprocess
interactions, the sampled memory figures, random suffixes, and elapsed
wall-clock times.  Defaults make concrete witnesses short. -/
structure EngineEnv where
  /-- Outcome of the ephemeral `podman run` in `_execute_isolated`
  (also covers exceptions raised while preparing the temp dir). -/
  isoOutcome : ProcOutcome := .completed 0 "" ""
  isoMemory : Int := 0
  isoSuffix : String := ""
  /-- Outcome of the permissive `podman run` in `_execute_development`. -/
  devOutcome : ProcOutcome := .completed 0 "" ""
  devMemory : Int := 0
  devSuffix : String := ""
  /-- Outcome of `_create_session_container`: `Except.ok id` on success, `.error`
  when the subprocess fails or its returncode is nonzero (the raised
  exception propagates to `execute_code`). -/
  createOutcome : Except String String := .ok ""
  /-- The `podman exec ... cat > /tmp/code_*` write step in
  `_execute_persistent`: `.error` when the subprocess machinery raises. -/
  writeOutcome : Except String (Int × String × String) := .ok (0, "", "")
  /-- The `podman exec` run step in `_execute_persistent`. -/
  execOutcome : ProcOutcome := .completed 0 "" ""
  persistMemory : Int := 0
  createdStamp : ℚ := 0
  /-- Elapsed `time.time() - start_time` as observed in `execute_code`. -/
  elapsed : ℚ := 0
  /-- Elapsed `time.time() - start_time` as observed in `_fallback_execution`. -/
  fallbackElapsed : ℚ := 0
  /-- An exception escaping inside `_fallback_execution`'s `try` block. -/
  fallbackRaise : Option String := none
  /-- Result string of `_sync_execute_python` (it catches all its own
  exceptions and always returns a string). -/
  pythonResult : String := ""
  /-- Result string of `_sync_execute_javascript`. -/
  jsResult : String := ""
  /-- Result string of `_sync_execute_bash`. -/
  bashResult : String := ""

/-- A `SessionContainer` record (`self.containers[session_id]`,
lines 389-393). -/
structure SessionContainer where
  created : ℚ
  language : String
  container_id : String

abbrev Containers := List (String × SessionContainer)

def containersLookup : Containers → String → Option SessionContainer
  | [], _ => none
  | (k, v) :: rest, k' => if k = k' then some v else containersLookup rest k'

/-- Embeds `_execute_isolated` (lines 137-218). -/
def execute_isolated (cfg : EngineConfig) (env : EngineEnv)
    (_code language : String) : ExecutionResult :=
  let container_name := "claude-jester-" ++ language ++ "-" ++ env.isoSuffix
  match lookupField (base_images.map fun p => (p.1, .str p.2)) language with
  | none =>
      -- `self.base_images[language]` raises KeyError, caught by the
      -- surrounding `except Exception` -> method "podman_error"
      { success := false, output := "",
        error := "Container execution failed: KeyError: " ++ language,
        execution_time := 0, memory_usage := 0,
        security_level := "isolation", method := "podman_error" }
  | some _ =>
      match env.isoOutcome with
      | .completed rc out err =>
          { success := rc == 0, output := out, error := err,
            execution_time := 0, memory_usage := env.isoMemory,
            container_id := some container_name,
            security_level := "isolation", method := "podman" }
      | .timedOut =>
          { success := false, output := "",
            error := "Execution timed out after 30 seconds",
            execution_time := cfg.timeout, memory_usage := 0,
            security_level := "isolation", method := "podman_timeout" }
      | .raised msg =>
          { success := false, output := "",
            error := "Container execution failed: " ++ msg,
            execution_time := 0, memory_usage := 0,
            security_level := "isolation", method := "podman_error" }

/-- Embeds `_execute_development` (lines 288-359). -/
def execute_development (env : EngineEnv)
    (_code language : String) : ExecutionResult :=
  let container_name := "claude-dev-" ++ language ++ "-" ++ env.devSuffix
  match lookupField (base_images.map fun p => (p.1, .str p.2)) language with
  | none =>
      { success := false, output := "",
        error := "Development execution failed: KeyError: " ++ language,
        execution_time := 0, memory_usage := 0,
        security_level := "development", method := "podman_error" }
  | some _ =>
      match env.devOutcome with
      | .completed rc out err =>
          { success := rc == 0, output := out, error := err,
            execution_time := 0, memory_usage := env.devMemory,
            container_id := some container_name,
            security_level := "development", method := "podman" }
      | .timedOut =>
          { success := false, output := "",
            error := "Development execution timed out after 60 seconds",
            execution_time := 60, memory_usage := 0,
            security_level := "development", method := "podman_timeout" }
      | .raised msg =>
          { success := false, output := "",
            error := "Development execution failed: " ++ msg,
            execution_time := 0, memory_usage := 0,
            security_level := "development", method := "podman_error" }

/-- The `try` body of `_execute_persistent` (lines 229-286): the
code-write `exec`, the run `exec`, and the `except`-driven downgrade to
`_execute_isolated`. -/
def execute_persistent_body (cfg : EngineConfig) (env : EngineEnv)
    (code language session_id : String) : ExecutionResult :=
  match env.writeOutcome with
  | .error _ => execute_isolated cfg env code language
  | .ok (wrc, _, _) =>
      if wrc != 0 then
        -- `raise Exception("Failed to write code: ...")`, caught
        -- by the enclosing `except` -> isolated fallback
        execute_isolated cfg env code language
      else
        match env.execOutcome with
        | .completed rc out err =>
            { success := rc == 0, output := out, error := err,
              execution_time := 0, memory_usage := env.persistMemory,
              container_id := some session_id,
              security_level := "persistent", method := "podman" }
        | .timedOut =>
            { success := false, output := "",
              error := "Execution timed out after 30 seconds",
              execution_time := cfg.timeout, memory_usage := 0,
              security_level := "persistent", method := "podman_timeout" }
        | .raised _ => execute_isolated cfg env code language

/-- Embeds `_execute_persistent` (lines 220-286).  The lazy
`_create_session_container` call sits before the `try`, so its failure
propagates to `execute_code` (`Except.error`); failures inside the
`try` fall back to `_execute_isolated`. -/
def execute_persistent (cfg : EngineConfig) (env : EngineEnv)
    (containers : Containers) (code language : String) :
    Except String (ExecutionResult × Containers) :=
  let session_id := "claude-session-" ++ language
  let ensured : Except String Containers :=
    match containersLookup containers session_id with
    | some _ => .ok containers
    | none =>
        match env.createOutcome with
        | .error msg => .error ("Failed to create session container: " ++ msg)
        | .ok cid =>
            .ok (containers ++
              [(session_id,
                { created := env.createdStamp, language := language,
                  container_id := cid })])
  match ensured with
  | .error msg => .error msg
  | .ok containers' =>
      .ok (execute_persistent_body cfg env code language session_id, containers')

/-- Embeds `_fallback_execution` (lines 455-487).  The three `_sync_execute_*`
helpers catch every exception internally and return strings, supplied
here by the environment; `fallbackRaise` models an exception escaping
within the `try` nonetheless. -/
def fallback_execution (env : EngineEnv)
    (_code language : String) : ExecutionResult :=
  match env.fallbackRaise with
  | some msg =>
      { success := false, output := "",
        error := "Fallback execution failed: " ++ msg,
        execution_time := env.fallbackElapsed, memory_usage := 0,
        security_level := "subprocess", method := "fallback_error" }
  | none =>
      let result :=
        if language == "python" then env.pythonResult
        else if language == "javascript" || language == "js" then env.jsResult
        else if language == "bash" then env.bashResult
        else "Unsupported language: " ++ language
      { success := !strContains result "Error:",
        output := if strContains result "Error:" then "" else result,
        error := if strContains result "Error:" then result else "",
        execution_time := env.fallbackElapsed, memory_usage := 0,
        security_level := "subprocess", method := "fallback" }

/-- Embeds `execute_code` (lines 96-135): tier dispatch, the podman-unavailable
fallback, the overwrite of `execution_time`, and the outer
`except Exception` producing a bare `podman_error` result. -/
def execute_code (cfg : EngineConfig) (podman_available : Bool)
    (env : EngineEnv) (containers : Containers)
    (code language security_level : String) :
    ExecutionResult × Containers :=
  match podman_available with
  | false => (fallback_execution env code language, containers)
  | true =>
    let dispatched : Except String (ExecutionResult × Containers) :=
      if security_level == "isolation" then
        .ok (execute_isolated cfg env code language, containers)
      else if security_level == "persistent" then
        execute_persistent cfg env containers code language
      else if security_level == "development" then
        .ok (execute_development env code language, containers)
      else
        .ok (execute_isolated cfg env code language, containers)
    match dispatched with
    | .ok (r, containers') => ({ r with execution_time := env.elapsed }, containers')
    | .error msg =>
        ({ success := false, output := "",
           error := "Container execution failed: " ++ msg,
           execution_time := env.elapsed, memory_usage := 0,
           method := "podman_error" }, containers)

/-! ## `safe_create_file` (lines 1650-1667)

The filesystem is an association list from path to content; the `open`
/`write` pair may raise (disk errors), supplied by the `writeErr`
oracle.  The traversal guard runs before any filesystem access. -/

abbrev FileSystem := List (String × String)

/-- Overwrite-or-insert semantics of `open(filename, 'w')` + `write`. -/
def fsWrite (fs : FileSystem) (filename content : String) : FileSystem :=
  if fs.any (fun p => p.1 == filename) then
    fs.map (fun p => if p.1 == filename then (p.1, content) else p)
  else
    fs ++ [(filename, content)]

/-- Embeds `safe_create_file`: returns the new filesystem and the result text. -/
def safe_create_file (writeErr : Option String) (fs : FileSystem)
    (filename content : String) : FileSystem × String :=
  if strContains filename ".." || strStartsWith filename "/" then
    (fs, "Error: Invalid filename (path traversal attempt detected)")
  else
    match writeErr with
    | some e => (fs, "Error creating file: " ++ e)
    | none =>
        (fsWrite fs filename content,
         "File \x27" ++ filename ++ "\x27 created successfully with " ++
           toString content.length ++ " characters")

/-! ## The security analyzer `_analyze_security` (lines 1233-1256)

It is a method of `IntegratedSlashCommands`; the mutable state of that
object (history list and the stats counters) is made explicit so that
"mutates no state" is a provable statement. -/

/-- The `self.stats` counters of `IntegratedSlashCommands` (lines 654-661). -/
structure SlashStats where
  commands_executed : Nat := 0
  quantum_tests_run : Nat := 0
  performance_gains_found : Nat := 0
  bugs_prevented : Nat := 0
  containers_used : Nat := 0
  security_violations_prevented : Nat := 0

/-- The mutable per-object state of `IntegratedSlashCommands`. -/
structure SlashState where
  history : List String := []
  stats : SlashStats := {}

/-- The fixed pattern catalogue (lines 1237-1250), in source order. -/
def dangerous_patterns : List (String × String) :=
  [("import os", "File system access"),
   ("subprocess", "System command execution"),
   ("exec(", "Code injection risk"),
   ("eval(", "Expression evaluation risk"),
   ("open(", "File access"),
   ("__import__", "Dynamic imports"),
   ("urllib", "Network access"),
   ("requests", "HTTP requests"),
   ("socket", "Network socket access"),
   ("sys.exit", "System exit attempt"),
   ("os.system", "System command execution"),
   ("os.popen", "System command execution")]

/-- Embeds `_analyze_security`: scans `code` for the catalogue substrings and
returns the (unchanged) object state with the findings, in catalogue
order. -/
def analyze_security (st : SlashState) (code : String) :
    SlashState × List String :=
  (st, dangerous_patterns.filterMap fun pd =>
    if strContains code pd.1 then some (pd.2 ++ ": `" ++ pd.1 ++ "`") else none)

/-! ## The Inspector (`mcp_inspector.py`, lines 24-101)

`MCPMessage`, the ring buffer, and `_update_metrics`.  Timestamps and
execution times are rationals; the websocket broadcast has no effect on
the buffer or the metrics and is not modelled. -/

/-- The `MCPMessage` dataclass (lines 24-34). -/
structure MCPMessage where
  timestamp : ℚ
  direction : String
  message_type : JValue
  method : JValue
  message_id : JValue
  content : JValue
  execution_time : Option ℚ := none
  error : Option String := none

/-- Per-method statistics (lines 90-93). -/
structure MethodStat where
  count : Nat := 0
  total_time : ℚ := 0
  avg_time : ℚ := 0
  errors : Nat := 0

/-- The `performance_metrics` dict (lines 42-47). -/
structure Metrics where
  total_messages : Nat := 0
  avg_response_time : ℚ := 0
  error_count : Nat := 0
  method_stats : List (JValue × MethodStat) := []

/-- The `MCPInspector` object state (lines 39-49). -/
structure Inspector where
  messages : List MCPMessage := []
  performance_metrics : Metrics := {}
  is_recording : Bool := true
  max_messages : Nat := 1000

/-- Truthiness of the optional `error` argument (`if message.error:`). -/
def errTruthy : Option String → Bool
  | some s => s != ""
  | none => false

/-- Lookup in `method_stats` under JSON-value equality. -/
def statsLookup (stats : List (JValue × MethodStat)) (k : JValue) :
    Option MethodStat :=
  match stats.find? (fun p => p.1.beq k) with
  | some p => some p.2
  | none => none

/-- Pointwise update of `method_stats[k]`. -/
def statsSet (stats : List (JValue × MethodStat)) (k : JValue)
    (v : MethodStat) : List (JValue × MethodStat) :=
  if stats.any (fun p => p.1.beq k) then
    stats.map (fun p => if p.1.beq k then (p.1, v) else p)
  else
    stats ++ [(k, v)]

/-- Embeds `_update_metrics` (lines 73-101).  Note that the running-average
formula divides by `total_messages`, the count of *all* messages,
incremented first; and that `if message.execution_time:` skips both
`None` and `0`. -/
def update_metrics (m : Metrics) (msg : MCPMessage) : Metrics :=
  let m := { m with total_messages := m.total_messages + 1 }
  let m :=
    if errTruthy msg.error then { m with error_count := m.error_count + 1 }
    else m
  let m :=
    match msg.execution_time with
    | some t =>
        if t ≠ 0 then
          { m with avg_response_time :=
              (m.avg_response_time * ((m.total_messages - 1 : Nat) : ℚ) + t) /
                (m.total_messages : ℚ) }
        else m
    | none => m
  if msg.method.truthy then
    let stats := (statsLookup m.method_stats msg.method).getD {}
    let stats := { stats with count := stats.count + 1 }
    let stats :=
      match msg.execution_time with
      | some t =>
          if t ≠ 0 then
            let total' := stats.total_time + t
            { stats with total_time := total',
                         avg_time := total' / (stats.count : ℚ) }
          else stats
      | none => stats
    let stats :=
      if errTruthy msg.error then { stats with errors := stats.errors + 1 }
      else stats
    { m with method_stats := statsSet m.method_stats msg.method stats }
  else m

/-- Construction of the `MCPMessage` in `log_message` (lines 54-63). -/
def mkMessage (now : ℚ) (direction : String) (content : JValue)
    (execution_time : Option ℚ) (error : Option String) : MCPMessage :=
  { timestamp := now, direction := direction,
    message_type := content.getD "method" (.str "response"),
    method := content.getOpt "method",
    message_id := content.getOpt "id",
    content := content,
    execution_time := execution_time, error := error }

/-- Embeds `log_message` (lines 51-71): build the message; when recording,
append, evict the oldest entry past the cap, and update the metrics.
(The broadcast coroutine is created without being awaited and has no
effect on this state.) -/
def log_message (now : ℚ) (i : Inspector) (direction : String)
    (content : JValue) (execution_time : Option ℚ)
    (error : Option String) : Inspector :=
  let message := mkMessage now direction content execution_time error
  if i.is_recording then
    let msgs := i.messages ++ [message]
    let msgs := if msgs.length > i.max_messages then msgs.drop 1 else msgs
    { i with messages := msgs,
             performance_metrics := update_metrics i.performance_metrics message }
  else i

/-- One `log_message` invocation, as data. -/
structure LogCall where
  now : ℚ := 0
  direction : String := "inbound"
  content : JValue := .obj []
  execution_time : Option ℚ := none
  error : Option String := none

/-- A sequence of `log_message` invocations. -/
def runCalls (i : Inspector) (calls : List LogCall) : Inspector :=
  calls.foldl
    (fun i c => log_message c.now i c.direction c.content c.execution_time c.error)
    i

/-- Spec-side definition (`spec.md` §8): the arithmetic mean of the
execution-time values recorded so far (0 when none were recorded). -/
def specMeanExecTimes (calls : List LogCall) : ℚ :=
  let ts := calls.filterMap (fun c => c.execution_time)
  ts.sum / (ts.length : ℚ)

/-! ## The JSON-RPC front-end (`standalone_mcp_server.py`, 1669-1947)

The handlers are pure functions of the parsed request; the tool
executions inside `handle_call_tool` (slash commands, the three
`safe_execute_*` helpers, the filesystem) are supplied by a
`ToolOracle`.  `json.loads` is the standard library, modelled as a
parse oracle `String → Except String JValue` quantified in the
theorems. -/

/-- Python `request.get("id")` followed by `if request_id is None: request_id = 1`
(both an absent key and a JSON `null` become `1`). -/
def idOr1 (req : JValue) : JValue :=
  match req.lookup "id" with
  | some .null => .num 1
  | some v => v
  | none => .num 1

/-- Python `request.get("id", 1)`: the default applies only to an absent key. -/
def idOrDefault1 (req : JValue) : JValue :=
  match req.lookup "id" with
  | some v => v
  | none => .num 1

/-- Embeds `handle_initialize_request` (lines 1669-1704); its body cannot raise. -/
def handle_initialize_request (req : JValue) : JValue :=
  .obj [("jsonrpc", .str "2.0"), ("id", idOr1 req),
        ("result", .obj
          [("protocolVersion", .str "2024-11-05"),
           ("capabilities", .obj [("tools", .obj [])]),
           ("serverInfo", .obj
             [("name", .str "claude-jester-podman"),
              ("version", .str "3.0.0")])])]

/-- The two advertised tool descriptors (lines 1719-1759). -/
def tool_descriptors : JValue :=
  .arr
    [.obj
      [("name", .str "execute_code"),
       ("description", .str "Execute code with quantum debugging, slash commands, and Podman containerization support"),
       ("inputSchema", .obj
         [("type", .str "object"),
          ("properties", .obj
            [("language", .obj
               [("type", .str "string"),
                ("description", .str "Programming language (python, javascript, bash) or \x27slash\x27 for commands"),
                ("enum", .arr [.str "python", .str "javascript", .str "bash", .str "slash"])]),
             ("code", .obj
               [("type", .str "string"),
                ("description", .str "Code to execute or slash command")])]),
          ("required", .arr [.str "language", .str "code"]),
          ("additionalProperties", .bool false)])],
     .obj
      [("name", .str "create_file"),
       ("description", .str "Create a file with specified content"),
       ("inputSchema", .obj
         [("type", .str "object"),
          ("properties", .obj
            [("filename", .obj
               [("type", .str "string"),
                ("description", .str "Name of the file to create")]),
             ("content", .obj
               [("type", .str "string"),
                ("description", .str "Content to write to the file")])]),
          ("required", .arr [.str "filename", .str "content"]),
          ("additionalProperties", .bool false)])]]

/-- Embeds `handle_list_tools` (lines 1706-1774); its body cannot raise. -/
def handle_list_tools (req : JValue) : JValue :=
  .obj [("jsonrpc", .str "2.0"), ("id", idOr1 req),
        ("result", .obj [("tools", tool_descriptors)])]

/-- External effects reachable from one `handle_call_tool` dispatch. -/
structure ToolOracle where
  /-- An exception escaping the handler's `try` from the environment. -/
  raised : Option String := none
  /-- Result text of `self.slash_commands.process_command`. -/
  slashResult : String → String := fun _ => ""
  /-- Result text of `self.safe_execute_python_code`. -/
  pyResult : String → String := fun _ => ""
  /-- Result text of `self.safe_execute_javascript_code`. -/
  jsResult : String → String := fun _ => ""
  /-- Result text of `self.safe_execute_bash_code`. -/
  bashResult : String → String := fun _ => ""
  fs : FileSystem := []
  writeErr : Option String := none

/-- The `-32603` envelope of `handle_call_tool`'s `except` branch
(lines 1840-1851). -/
def callToolErrorResp (req : JValue) (msg : String) : JValue :=
  .obj [("jsonrpc", .str "2.0"), ("id", idOrDefault1 req),
        ("error", .obj [("code", .num (-32603)),
                        ("message", .str ("Internal error: " ++ msg))])]

/-- The tool-dispatch body of `handle_call_tool` (lines 1780-1822),
in the `Except` monad: `.error` is a raised exception. -/
def callToolBody (o : ToolOracle) (req : JValue) : Except String String := do
  let params := req.getD "params" (.obj [])
  let toolName := (← tryGet params "name").getD .null
  let args := params.getD "arguments" (.obj [])
  if !toolName.truthy then throw "Tool name is required"
  match toolName with
  | .str "execute_code" =>
      let language ←
        match (← tryGet args "language").getD (.str "") with
        | .str s => pure s.toLower
        | _ => throw "AttributeError: lower"
      let code ←
        match (← tryGet args "code").getD (.str "") with
        | .str s => pure s
        | _ => throw "AttributeError: strip"
      if pyStrip code == "" then pure "Error: No code provided"
      else if language == "slash" || strStartsWith code "/" then
        pure (o.slashResult code)
      else if language == "python" then pure (o.pyResult code)
      else if language == "javascript" || language == "js" then
        pure (o.jsResult code)
      else if language == "bash" then pure (o.bashResult code)
      else
        pure ("Unsupported language: " ++ language ++
          ". Supported: python, javascript, bash, slash")
  | .str "create_file" =>
      let filenameV := (← tryGet args "filename").getD (.str "")
      let contentV := (← tryGet args "content").getD (.str "")
      if !filenameV.truthy then pure "Error: Filename is required"
      else
        match filenameV, contentV with
        | .str filename, .str content =>
            pure (safe_create_file o.writeErr o.fs filename content).2
        | _, _ => pure "Error creating file: TypeError"
  | _ => pure ("Unknown tool: " ++ toolName.pyStr)

/-- Embeds `handle_call_tool` (lines 1776-1851): the dispatch body wrapped in
the success envelope, with the `except` branch producing `-32603`. -/
def handle_call_tool (o : ToolOracle) (req : JValue) : JValue :=
  match o.raised with
  | some msg => callToolErrorResp req msg
  | none =>
      match callToolBody o req with
      | .ok result =>
          .obj [("jsonrpc", .str "2.0"), ("id", idOr1 req),
                ("result", .obj
                  [("content", .arr
                    [.obj [("type", .str "text"), ("text", .str result)]])])]
      | .error msg => callToolErrorResp req msg

/-- The `-32601` envelope of the unknown-method branch (lines 1893-1901). -/
def methodNotFoundResp (req : JValue) : JValue :=
  .obj [("jsonrpc", .str "2.0"), ("id", idOrDefault1 req),
        ("error", .obj [("code", .num (-32601)),
                        ("message", .str ("Method not found: " ++
                          (req.getOpt "method").pyStr))])]

/-- The `-32700` envelope for a malformed line (lines 1912-1919). -/
def parseErrorResp (msg : String) : JValue :=
  .obj [("jsonrpc", .str "2.0"), ("id", .null),
        ("error", .obj [("code", .num (-32700)),
                        ("message", .str ("Parse error: " ++ msg))])]

/-- The `-32603` envelope of the outer request-handling `except`
(lines 1928-1935), with the hardcoded `id: None`. -/
def internalErrorResp (msg : String) : JValue :=
  .obj [("jsonrpc", .str "2.0"), ("id", .null),
        ("error", .obj [("code", .num (-32603)),
                        ("message", .str ("Internal error: " ++ msg))])]

/-- The string carried by `request.get("method")`, when it is one: a
Python `==` between a non-string (or `None`) and the literal method
names is always false, landing in the `-32601` branch. -/
def methodString : Option JValue → Option String
  | some (.str s) => some s
  | _ => none

/-- The `elif` chain of `main` on `method` (lines 1881-1901): the
emitted responses (`[]` for the `initialized` notification, whose
branch `continue`s). -/
def dispatchMethod (o : ToolOracle) (req : JValue)
    (m : Option JValue) : List JValue :=
  match methodString m with
  | some s =>
      if s = "initialize" then [handle_initialize_request req]
      else if s = "tools/list" then [handle_list_tools req]
      else if s = "tools/call" then [handle_call_tool o req]
      else if s = "notifications/initialized" then []
      else [methodNotFoundResp req]
  | none => [methodNotFoundResp req]

/-- Method dispatch on one successfully parsed line (lines 1878-1906).
`request.get("method")` on a parsed non-object raises `AttributeError`,
landing in the outer `except` handler (`-32603`, `id: None`). -/
def processParsed (o : ToolOracle) (req : JValue) : List JValue :=
  match req with
  | .obj fields => dispatchMethod o req (lookupField fields "method")
  | _ => [internalErrorResp "AttributeError: get"]

/-- One non-empty input line, after `json.loads` (lines 1874-1938). -/
def processLine (o : ToolOracle) (parsed : Except String JValue) :
    List JValue :=
  match parsed with
  | .error e => [parseErrorResp e]
  | .ok req => processParsed o req

/-- The `main` read loop (lines 1853-1946): strip each line, skip empty
lines, parse and dispatch the rest; the emitted stdout lines in order. -/
def mainLoop (o : ToolOracle) (parse : String → Except String JValue)
    (lines : List String) : List JValue :=
  lines.flatMap fun l =>
    let s := pyStrip l
    if s == "" then [] else processLine o (parse s)

/-- Whether a parsed line is a well-formed request carrying the method
`notifications/initialized`. -/
def isInitializedNotification : Except String JValue → Bool
  | .ok (.obj fields) =>
      methodString (lookupField fields "method")
        == some "notifications/initialized"
  | _ => false

/-- Extracts `error.code` of a response envelope, when present. -/
def errorCodeOf (resp : JValue) : Option Int :=
  match resp.lookup "error" with
  | some e =>
      match e.lookup "code" with
      | some (.num c) => some c
      | _ => none
  | _ => none

/-! ## Helper lemmas about the execution paths -/

theorem isolated_method_of_success (cfg : EngineConfig) (env : EngineEnv)
    (code language : String)
    (h : (execute_isolated cfg env code language).success = true) :
    (execute_isolated cfg env code language).method = "podman" := by
  unfold execute_isolated at h ⊢
  split at h
  · simp at h
  · split at h <;> simp_all

theorem development_method_of_success (env : EngineEnv)
    (code language : String)
    (h : (execute_development env code language).success = true) :
    (execute_development env code language).method = "podman" := by
  unfold execute_development at h ⊢
  split at h
  · simp at h
  · split at h <;> simp_all

theorem fallback_method_of_success (env : EngineEnv) (code language : String)
    (h : (fallback_execution env code language).success = true) :
    (fallback_execution env code language).method = "fallback" := by
  unfold fallback_execution at h ⊢
  split at h <;> simp_all

theorem persistent_method_of_success (cfg : EngineConfig) (env : EngineEnv)
    (containers : Containers) (code language : String)
    (r : ExecutionResult) (cs' : Containers)
    (hok : execute_persistent cfg env containers code language = .ok (r, cs'))
    (h : r.success = true) : r.method = "podman" := by
  have hbody : ∀ sid : String,
      r = execute_persistent_body cfg env code language sid →
      r.method = "podman" := by
    intro sid hr
    rw [hr] at h ⊢
    unfold execute_persistent_body at h ⊢
    rcases hW : env.writeOutcome with msg' | ⟨wrc, wout, werr⟩ <;>
      simp only [hW] at h ⊢
    · exact isolated_method_of_success cfg env code language h
    · by_cases hwrc : (wrc != 0) = true
      · simp only [hwrc, if_true] at h ⊢
        exact isolated_method_of_success cfg env code language h
      · rw [Bool.not_eq_true] at hwrc
        simp only [hwrc, Bool.false_eq_true, if_false] at h ⊢
        rcases hE : env.execOutcome with ⟨rc, out, err⟩ | _ | msg'' <;>
          simp only [hE] at h ⊢
        all_goals first
          | rfl
          | exact isolated_method_of_success cfg env code language h
          | exact absurd h (by simp)
  simp only [execute_persistent] at hok
  rcases hL : containersLookup containers ("claude-session-" ++ language)
      with _ | sc <;> simp only [hL] at hok
  · rcases hC : env.createOutcome with msg | cid <;> simp only [hC] at hok
    · exact absurd hok (by simp)
    · rw [Except.ok.injEq, Prod.mk.injEq] at hok
      exact hbody _ hok.1.symm
  · rw [Except.ok.injEq, Prod.mk.injEq] at hok
    exact hbody _ hok.1.symm

/-! ## The claims -/

/-- C1 (counterexample): at a concrete input — podman available,
isolation tier, the ephemeral container exiting with status 1 — the
result has `method = "podman"` but `success = false`, so
`success ⇔ method ∈ {podman, fallback}` is false as stated. -/
theorem C1_counterexample :
    ¬(((execute_code defaultConfig true { isoOutcome := .completed 1 "" "" }
          [] "print(1)" "python" "isolation").1.success = true) ↔
      ((execute_code defaultConfig true { isoOutcome := .completed 1 "" "" }
          [] "print(1)" "python" "isolation").1.method = "podman" ∨
       (execute_code defaultConfig true { isoOutcome := .completed 1 "" "" }
          [] "print(1)" "python" "isolation").1.method = "fallback")) := by
  decide

/-- C1 (amended): for every `ExecutionResult` returned by
`execute_code`, if `success` is true then `method` is `podman` or
`fallback` (the converse direction fails; see `C1_counterexample`). -/
theorem C1_success_implies_method (cfg : EngineConfig)
    (podman_available : Bool) (env : EngineEnv) (containers : Containers)
    (code language tier : String)
    (h : (execute_code cfg podman_available env containers
            code language tier).1.success = true) :
    (execute_code cfg podman_available env containers
        code language tier).1.method = "podman" ∨
    (execute_code cfg podman_available env containers
        code language tier).1.method = "fallback" := by
  unfold execute_code at h ⊢
  cases podman_available with
  | false =>
      exact Or.inr (fallback_method_of_success env code language h)
  | true =>
      by_cases h1 : (tier == "isolation") = true
      · simp only [h1, if_true] at h ⊢
        exact Or.inl (isolated_method_of_success cfg env code language h)
      · simp only [h1, Bool.false_eq_true, if_false] at h ⊢
        by_cases h2 : (tier == "persistent") = true
        · simp only [h2, if_true] at h ⊢
          obtain ⟨d, hd⟩ : ∃ d, d = execute_persistent cfg env containers
              code language := ⟨_, rfl⟩
          rw [← hd] at h ⊢
          rcases d with e | ⟨r, cs'⟩
          · exact absurd h (by simp)
          · replace h : r.success = true := h
            exact Or.inl (persistent_method_of_success cfg env containers
              code language r cs' hd.symm h)
        · simp only [h2, Bool.false_eq_true, if_false] at h ⊢
          by_cases h3 : (tier == "development") = true
          · simp only [h3, if_true] at h ⊢
            exact Or.inl (development_method_of_success env code language h)
          · simp only [h3, Bool.false_eq_true, if_false] at h ⊢
            exact Or.inl (isolated_method_of_success cfg env code language h)

/-- C1 witness: a concrete successful fallback execution, where the
amended implication yields `method ∈ {podman, fallback}`. -/
theorem C1_success_implies_method_witness :
    (execute_code defaultConfig false { pythonResult := "Output:\n4" }
        [] "print(2+2)" "python" "isolation").1.success = true ∧
    ((execute_code defaultConfig false { pythonResult := "Output:\n4" }
        [] "print(2+2)" "python" "isolation").1.method = "podman" ∨
     (execute_code defaultConfig false { pythonResult := "Output:\n4" }
        [] "print(2+2)" "python" "isolation").1.method = "fallback") :=
  ⟨by decide,
   C1_success_implies_method defaultConfig false { pythonResult := "Output:\n4" }
     [] "print(2+2)" "python" "isolation" (by decide)⟩

/-- C3: for every filename containing `..` or beginning with `/`,
`safe_create_file` leaves the filesystem unchanged (for every
write-failure oracle) and returns a text beginning with `Error:`. -/
theorem C3_create_file_traversal_guard (writeErr : Option String)
    (fs : FileSystem) (filename content : String)
    (h : strContains filename ".." = true ∨ strStartsWith filename "/" = true) :
    (safe_create_file writeErr fs filename content).1 = fs ∧
    strStartsWith (safe_create_file writeErr fs filename content).2 "Error:"
      = true := by
  have hc : (strContains filename ".." || strStartsWith filename "/") = true := by
    rcases h with h | h <;> simp [h]
  simp only [safe_create_file, hc, if_true]
  constructor
  · first | rfl | trivial
  · decide

/-- C3 witness: the spec's concrete scenario `filename = "../escape.txt"`. -/
theorem C3_create_file_traversal_guard_witness :
    (strContains "../escape.txt" ".." = true ∨
      strStartsWith "../escape.txt" "/" = true) ∧
    (safe_create_file none [("a.txt", "x")] "../escape.txt" "y").1
      = [("a.txt", "x")] ∧
    strStartsWith
      (safe_create_file none [("a.txt", "x")] "../escape.txt" "y").2 "Error:"
      = true :=
  ⟨Or.inl (by decide),
   C3_create_file_traversal_guard none [("a.txt", "x")] "../escape.txt" "y"
     (Or.inl (by decide))⟩

/-- C7: when podman is reported unavailable at construction, every
`execute_code` call — for every tier — is exactly the subprocess
fallback, so its result carries `security_level = "subprocess"` and
`method ∈ {fallback, fallback_error}`. -/
theorem C7_unavailable_routes_to_fallback (cfg : EngineConfig)
    (env : EngineEnv) (containers : Containers)
    (code language tier : String) :
    (execute_code cfg false env containers code language tier).1
      = fallback_execution env code language ∧
    (execute_code cfg false env containers code language
        tier).1.security_level = "subprocess" ∧
    ((execute_code cfg false env containers code language
        tier).1.method = "fallback" ∨
     (execute_code cfg false env containers code language
        tier).1.method = "fallback_error") := by
  refine ⟨rfl, ?_, ?_⟩
  · show (fallback_execution env code language).security_level = "subprocess"
    unfold fallback_execution
    cases env.fallbackRaise <;> simp
  · show (fallback_execution env code language).method = "fallback" ∨
      (fallback_execution env code language).method = "fallback_error"
    unfold fallback_execution
    cases env.fallbackRaise <;> simp

/-- C8: invoking `execute_code` with a tier outside
`{isolation, persistent, development}` is the very same computation as
invoking it with tier `"isolation"`. -/
theorem C8_unknown_tier_is_isolation (cfg : EngineConfig)
    (podman_available : Bool) (env : EngineEnv) (containers : Containers)
    (code language tier : String)
    (h1 : tier ≠ "isolation") (h2 : tier ≠ "persistent")
    (h3 : tier ≠ "development") :
    execute_code cfg podman_available env containers code language tier
      = execute_code cfg podman_available env containers code language
          "isolation" := by
  have e1 : (tier == "isolation") = false := by simp [h1]
  have e2 : (tier == "persistent") = false := by simp [h2]
  have e3 : (tier == "development") = false := by simp [h3]
  unfold execute_code
  cases podman_available <;> simp [e1, e2, e3]

/-- C8 witness: the unknown tier `"paranoid"` behaves as `"isolation"`
at a concrete input. -/
theorem C8_unknown_tier_is_isolation_witness :
    execute_code defaultConfig true { isoOutcome := .completed 0 "hi" "" }
        [] "print(1)" "python" "paranoid"
      = execute_code defaultConfig true { isoOutcome := .completed 0 "hi" "" }
          [] "print(1)" "python" "isolation" :=
  C8_unknown_tier_is_isolation defaultConfig true
    { isoOutcome := .completed 0 "hi" "" } [] "print(1)" "python" "paranoid"
    (by decide) (by decide) (by decide)

/-- A decomposition of infixes of an append: an infix of `a ++ b` lies
in `a`, lies in `b`, or splits into a nonempty suffix of `a` followed by
a nonempty prefix of `b`. -/
theorem infix_append_decomp {α : Type} {p a b : List α} (h : p <:+: a ++ b) :
    p <:+: a ∨ p <:+: b ∨
      ∃ k, 0 < k ∧ k < p.length ∧ p.take k <:+ a ∧ p.drop k <+: b := by
  obtain ⟨s, t, hst⟩ := h
  by_cases h1 : a.length ≤ s.length
  · have hs : s <+: a ++ b := ⟨p ++ t, by rw [← hst]; simp [List.append_assoc]⟩
    have hap : a <+: s :=
      List.prefix_of_prefix_length_le (List.prefix_append a b) hs h1
    obtain ⟨s', rfl⟩ := hap
    refine Or.inr (Or.inl ⟨s', t, ?_⟩)
    rw [List.append_assoc a s', List.append_assoc a (s' ++ p)] at hst
    have hb := List.append_cancel_left hst
    rw [List.append_assoc] at hb ⊢
    exact hb
  · push_neg at h1
    by_cases h2 : s.length + p.length ≤ a.length
    · have hsp : s ++ p <+: a ++ b := ⟨t, hst⟩
      have hsp' : s ++ p <+: a :=
        List.prefix_of_prefix_length_le hsp (List.prefix_append a b)
          (by simpa using h2)
      obtain ⟨r, hr⟩ := hsp'
      exact Or.inl ⟨s, r, hr⟩
    · push_neg at h2
      set k := a.length - s.length with hk
      have hkp : k ≤ p.length := by omega
      refine Or.inr (Or.inr ⟨k, by omega, by omega, ?_, ?_⟩)
      all_goals
        have hstep : (s ++ p.take k) ++ (p.drop k ++ t) = a ++ b := by
          rw [List.append_assoc, ← List.append_assoc (p.take k),
            List.take_append_drop, ← List.append_assoc]
          exact hst
      all_goals
        have hklen : (s ++ p.take k).length = a.length := by
          simp only [List.length_append, List.length_take]
          omega
      all_goals
        have heq : s ++ p.take k = a :=
          (List.prefix_of_prefix_length_le ⟨_, hstep⟩ (List.prefix_append a b)
            (le_of_eq hklen)).eq_of_length hklen
      · exact ⟨s, heq⟩
      · refine ⟨t, ?_⟩
        have hcan : a ++ (p.drop k ++ t) = a ++ b := by
          conv_lhs => rw [← heq]
          exact hstep
        exact List.append_cancel_left hcan

/-- For a language text free of the substring `Error:`, the assembled
fallback text `Unsupported language: <language>` is also free of it (no
occurrence can sit inside, or overlap, the fixed prefix). -/
theorem unsupported_text_no_error (lang : String)
    (h : strContains lang "Error:" = false) :
    strContains ("Unsupported language: " ++ lang) "Error:" = false := by
  unfold strContains at h ⊢
  rw [decide_eq_false_iff_not] at h ⊢
  intro hcon
  have hsplit : ("Unsupported language: " ++ lang).toList
      = "Unsupported language: ".toList ++ lang.toList := by
    simp [String.toList]
  rw [hsplit] at hcon
  rcases infix_append_decomp hcon with h1 | h2 | ⟨k, hk0, hklen, hsuf, -⟩
  · exact absurd h1 (by decide)
  · exact h h2
  · have hk6 : k < 6 := by
      have h6 : ("Error:".toList).length = 6 := by decide
      omega
    have hall : ∀ m, m < 6 → 0 < m →
        ¬ ("Error:".toList.take m <:+ "Unsupported language: ".toList) := by
      decide
    exact hall k hk6 hk0 hsuf

/-- C10 (counterexample): at `language = "Error:"` (outside the four
supported names) the fallback path does not return the claimed result:
the assembled text contains `Error:`, so `success = false` and the text
lands in `error` with `output` empty. -/
theorem C10_counterexample :
    ¬((fallback_execution {} "print(1)" "Error:").output
        = "Unsupported language: " ++ "Error:" ∧
      (fallback_execution {} "print(1)" "Error:").success = true) ∧
    (fallback_execution {} "print(1)" "Error:").success = false ∧
    (fallback_execution {} "print(1)" "Error:").output = "" ∧
    (fallback_execution {} "print(1)" "Error:").error
      = "Unsupported language: Error:" ∧
    (fallback_execution {} "print(1)" "Error:").method = "fallback" := by
  decide

/-- C10 (amended): for every language outside
`{python, javascript, js, bash}` whose text does not itself contain the
substring `Error:`, and absent an engine-level exception, the fallback
path returns `output = "Unsupported language: <language>"`,
`success = true` and `method = "fallback"` — success being derived from
the absence of `Error:` in the assembled text, not from an exit code. -/
theorem C10_unsupported_language (env : EngineEnv) (code lang : String)
    (hraise : env.fallbackRaise = none)
    (h1 : lang ≠ "python") (h2 : lang ≠ "javascript") (h3 : lang ≠ "js")
    (h4 : lang ≠ "bash") (h5 : strContains lang "Error:" = false) :
    fallback_execution env code lang =
      { success := true, output := "Unsupported language: " ++ lang,
        error := "", execution_time := env.fallbackElapsed,
        memory_usage := 0, container_id := none,
        security_level := "subprocess", method := "fallback" } := by
  have e1 : (lang == "python") = false := by simp [h1]
  have e2 : (lang == "javascript") = false := by simp [h2]
  have e3 : (lang == "js") = false := by simp [h3]
  have e4 : (lang == "bash") = false := by simp [h4]
  have hc : strContains ("Unsupported language: " ++ lang) "Error:" = false :=
    unsupported_text_no_error lang h5
  unfold fallback_execution
  rw [hraise]
  simp [e1, e2, e3, e4, hc]

/-- C10 witness: the amended statement at `language = "rust"`. -/
theorem C10_unsupported_language_witness :
    strContains "rust" "Error:" = false ∧
    fallback_execution {} "x" "rust" =
      { success := true, output := "Unsupported language: rust",
        error := "", execution_time := 0, memory_usage := 0,
        container_id := none, security_level := "subprocess",
        method := "fallback" } :=
  ⟨by decide,
   C10_unsupported_language {} "x" "rust" rfl (by decide) (by decide)
     (by decide) (by decide) (by decide)⟩

/-- C9: the security analyzer is deterministic and stateless — it
returns the object state unchanged, and its findings depend only on the
code text (identical across runs from any two states). -/
theorem C9_analyzer_pure (s₁ s₂ : SlashState) (code : String) :
    (analyze_security s₁ code).1 = s₁ ∧
    (analyze_security s₁ code).2 = (analyze_security s₂ code).2 :=
  ⟨rfl, rfl⟩

/-- The method dispatch emits exactly one response unless the method is
the `notifications/initialized` literal. -/
theorem dispatchMethod_length (o : ToolOracle) (req : JValue)
    (m : Option JValue) :
    (dispatchMethod o req m).length =
      if methodString m == some "notifications/initialized" then 0 else 1 := by
  rcases m with _ | v
  · rfl
  · rcases v with _ | b | n | s | elems | flds
    case str =>
      by_cases e4 : s = "notifications/initialized"
      · subst e4; simp [dispatchMethod, methodString]
      · by_cases e1 : s = "initialize"
        · subst e1; simp [dispatchMethod, methodString]
        · by_cases e2 : s = "tools/list"
          · subst e2; simp [dispatchMethod, methodString]
          · by_cases e3 : s = "tools/call"
            · subst e3; simp [dispatchMethod, methodString]
            · simp [dispatchMethod, methodString, e1, e2, e3, e4]
    all_goals rfl

/-- Per-line dispatch emits exactly one response unless the line is the
`notifications/initialized` notification. -/
theorem processLine_length (o : ToolOracle) (parsed : Except String JValue) :
    (processLine o parsed).length =
      if isInitializedNotification parsed then 0 else 1 := by
  rcases parsed with e | req
  · rfl
  · rcases req with _ | b | n | s | elems | fields
    case obj =>
      simp only [processLine, processParsed, isInitializedNotification]
      exact dispatchMethod_length o (JValue.obj fields)
        (lookupField fields "method")
    all_goals rfl

/-- A non-empty line contributes its `processLine` output to the main
loop, in place. -/
theorem mainLoop_cons (o : ToolOracle) (parse : String → Except String JValue)
    (l : String) (rest : List String) (h : pyStrip l ≠ "") :
    mainLoop o parse (l :: rest)
      = processLine o (parse (pyStrip l)) ++ mainLoop o parse rest := by
  have hb : (pyStrip l == "") = false := by simpa using h
  simp only [mainLoop, List.flatMap_cons, hb, Bool.false_eq_true, if_false]

/-- C4: every non-empty stdin line makes the main loop emit exactly one
response line — zero when the line is a well-formed request whose
method is `notifications/initialized` — and the rest of the stream is
processed unchanged after it. -/
theorem C4_one_response_per_line (o : ToolOracle)
    (parse : String → Except String JValue) (l : String)
    (rest : List String) (h : pyStrip l ≠ "") :
    mainLoop o parse (l :: rest)
      = processLine o (parse (pyStrip l)) ++ mainLoop o parse rest ∧
    (processLine o (parse (pyStrip l))).length =
      (if isInitializedNotification (parse (pyStrip l)) then 0 else 1) :=
  ⟨mainLoop_cons o parse l rest h, processLine_length o (parse (pyStrip l))⟩

/-- C4 witness: a malformed line emits exactly one response; the
`initialized` notification emits none (shown via the `if`). -/
theorem C4_one_response_per_line_witness :
    pyStrip "bad json" ≠ "" ∧
    (mainLoop {} (fun _ => .error "Expecting value") ["bad json"]
      = processLine {} (.error "Expecting value")
          ++ mainLoop {} (fun _ => .error "Expecting value") [] ∧
    (processLine {} (Except.error "Expecting value")).length =
      (if isInitializedNotification (.error "Expecting value") then 0 else 1)) :=
  ⟨by decide,
   C4_one_response_per_line {} (fun _ => .error "Expecting value")
     "bad json" [] (by decide)⟩

/-- C5: a non-empty line that fails to parse as JSON produces exactly
the `-32700` envelope with `id = null`, and the loop goes on to process
the remaining lines (the process does not terminate). -/
theorem C5_parse_error (o : ToolOracle)
    (parse : String → Except String JValue) (l : String)
    (rest : List String) (msg : String) (h : pyStrip l ≠ "")
    (hp : parse (pyStrip l) = .error msg) :
    mainLoop o parse (l :: rest)
      = parseErrorResp msg :: mainLoop o parse rest ∧
    (parseErrorResp msg).lookup "id" = some .null ∧
    errorCodeOf (parseErrorResp msg) = some (-32700) := by
  refine ⟨?_, rfl, rfl⟩
  rw [mainLoop_cons o parse l rest h, hp]
  rfl

/-- C5 witness: the spec's concrete scenario, a `{not json` line
followed by a further request line that is still processed. -/
theorem C5_parse_error_witness :
    pyStrip "not json" ≠ "" ∧
    (fun _ => (Except.error "Expecting value" : Except String JValue))
        (pyStrip "not json") = .error "Expecting value" ∧
    (mainLoop {} (fun _ => .error "Expecting value") ["not json", "x"]
      = parseErrorResp "Expecting value"
          :: mainLoop {} (fun _ => .error "Expecting value") ["x"] ∧
    (parseErrorResp "Expecting value").lookup "id" = some .null ∧
    errorCodeOf (parseErrorResp "Expecting value") = some (-32700)) :=
  ⟨by decide, rfl,
   C5_parse_error {} (fun _ => .error "Expecting value") "not json" ["x"]
     "Expecting value" (by decide) rfl⟩

/-! ## Inspector lemmas -/

theorem log_message_max (now : ℚ) (i : Inspector) (dir : String) (c : JValue)
    (et : Option ℚ) (er : Option String) :
    (log_message now i dir c et er).max_messages = i.max_messages := by
  unfold log_message
  split <;> rfl

theorem log_message_recording (now : ℚ) (i : Inspector) (dir : String)
    (c : JValue) (et : Option ℚ) (er : Option String) :
    (log_message now i dir c et er).is_recording = i.is_recording := by
  unfold log_message
  split <;> rfl

theorem log_message_messages_le (now : ℚ) (i : Inspector) (dir : String)
    (c : JValue) (et : Option ℚ) (er : Option String)
    (h : i.messages.length ≤ i.max_messages) :
    (log_message now i dir c et er).messages.length ≤ i.max_messages := by
  unfold log_message
  by_cases hrec : i.is_recording = true
  · rw [if_pos hrec]
    by_cases hlen :
        (i.messages ++ [mkMessage now dir c et er]).length > i.max_messages
    · simp only [if_pos hlen]
      simp only [List.length_drop, List.length_append, List.length_cons,
        List.length_nil] at hlen ⊢
      omega
    · simp only [if_neg hlen]
      simp only [List.length_append, List.length_cons, List.length_nil] at hlen ⊢
      omega
  · rw [if_neg hrec]
    exact h

theorem runCalls_max (calls : List LogCall) :
    ∀ i : Inspector, (runCalls i calls).max_messages = i.max_messages := by
  induction calls with
  | nil => intro i; rfl
  | cons c cs ih =>
      intro i
      show (runCalls (log_message c.now i c.direction c.content
        c.execution_time c.error) cs).max_messages = i.max_messages
      rw [ih, log_message_max]

theorem runCalls_messages_le (calls : List LogCall) :
    ∀ i : Inspector, i.messages.length ≤ i.max_messages →
      (runCalls i calls).messages.length ≤ (runCalls i calls).max_messages := by
  induction calls with
  | nil => intro i h; exact h
  | cons c cs ih =>
      intro i h
      have h1 := log_message_messages_le c.now i c.direction c.content
        c.execution_time c.error h
      rw [← log_message_max c.now i c.direction c.content
        c.execution_time c.error] at h1
      exact ih _ h1

/-- C6: starting from the freshly constructed Inspector, the ring
buffer never exceeds the 1000-message cap after any sequence of
`log_message` calls; and whenever an append would exceed the configured
cap, the element removed is the head (the oldest) of the buffer. -/
theorem C6_ring_buffer :
    (∀ calls : List LogCall,
      (runCalls {} calls).messages.length ≤ 1000) ∧
    (∀ (now : ℚ) (i : Inspector) (dir : String) (c : JValue)
        (et : Option ℚ) (er : Option String),
      i.is_recording = true → i.messages.length = i.max_messages →
      0 < i.max_messages →
      (log_message now i dir c et er).messages
        = i.messages.drop 1 ++ [mkMessage now dir c et er]) := by
  constructor
  · intro calls
    have h := runCalls_messages_le calls {} (Nat.zero_le _)
    rwa [runCalls_max] at h
  · intro now i dir c et er hrec hlen hmax
    unfold log_message
    rw [if_pos hrec]
    have hcond :
        (i.messages ++ [mkMessage now dir c et er]).length > i.max_messages := by
      simp only [List.length_append, List.length_cons, List.length_nil]
      omega
    simp only [if_pos hcond]
    rw [List.drop_append_of_le_length (by omega)]

/-- C6 witness: a one-call run respects the default cap, and a full
two-slot buffer evicts exactly its oldest message on the next log. -/
theorem C6_ring_buffer_witness :
    (runCalls {} [{ execution_time := some 1 }]).messages.length ≤ 1000 ∧
    (log_message 7 { messages := [mkMessage 0 "inbound" (.obj []) none none,
          mkMessage 1 "inbound" (.obj []) none none], max_messages := 2 }
        "outbound" (.obj []) none none).messages
      = [mkMessage 0 "inbound" (.obj []) none none,
         mkMessage 1 "inbound" (.obj []) none none].drop 1
        ++ [mkMessage 7 "outbound" (.obj []) none none] :=
  ⟨C6_ring_buffer.1 [{ execution_time := some 1 }],
   C6_ring_buffer.2 7
     { messages := [mkMessage 0 "inbound" (.obj []) none none,
         mkMessage 1 "inbound" (.obj []) none none], max_messages := 2 }
     "outbound" (.obj []) none none rfl rfl (by decide)⟩

/-! ## Metrics lemmas for the running average -/

theorem update_metrics_timed (m : Metrics) (msg : MCPMessage) (t : ℚ)
    (ht : msg.execution_time = some t) (ht0 : t ≠ 0) :
    (update_metrics m msg).total_messages = m.total_messages + 1 ∧
    (update_metrics m msg).avg_response_time
      = (m.avg_response_time * (m.total_messages : ℚ) + t)
          / ((m.total_messages + 1 : Nat) : ℚ) := by
  unfold update_metrics
  rw [ht]
  by_cases herr : errTruthy msg.error = true <;>
    by_cases hmeth : msg.method.truthy = true <;>
      simp [herr, hmeth, ht0, Nat.add_sub_cancel]

theorem log_message_metrics (now : ℚ) (i : Inspector) (dir : String)
    (c : JValue) (et : Option ℚ) (er : Option String)
    (hrec : i.is_recording = true) :
    (log_message now i dir c et er).performance_metrics
      = update_metrics i.performance_metrics
          (mkMessage now dir c et er) := by
  unfold log_message
  rw [if_pos hrec]

/-- With every call carrying a nonzero execution time, `runCalls`
advances `total_messages` by the number of calls and scales
`avg_response_time` so that `avg · total` tracks the running sum of the
times. -/
theorem runCalls_avg_inv (calls : List LogCall) :
    ∀ i : Inspector, i.is_recording = true →
    (∀ c ∈ calls, c.execution_time.getD 0 ≠ 0) →
    (runCalls i calls).performance_metrics.total_messages
        = i.performance_metrics.total_messages + calls.length ∧
    (runCalls i calls).performance_metrics.avg_response_time *
        ((i.performance_metrics.total_messages : ℚ) + (calls.length : ℚ))
      = i.performance_metrics.avg_response_time *
          (i.performance_metrics.total_messages : ℚ)
        + (calls.map fun c => c.execution_time.getD 0).sum := by
  induction calls with
  | nil =>
      intro i hrec hall
      refine ⟨by simp [runCalls], ?_⟩
      simp [runCalls]
  | cons c cs ih =>
      intro i hrec hall
      have hc : c.execution_time.getD 0 ≠ 0 := hall c (by simp)
      obtain ⟨t, ht, ht0⟩ : ∃ t, c.execution_time = some t ∧ t ≠ 0 := by
        rcases hx : c.execution_time with _ | t
        · rw [hx] at hc; simp at hc
        · refine ⟨t, rfl, ?_⟩
          rw [hx] at hc; simpa using hc
      have hrec' : (log_message c.now i c.direction c.content
          c.execution_time c.error).is_recording = true := by
        rw [log_message_recording]; exact hrec
      have hmet := log_message_metrics c.now i c.direction c.content
        c.execution_time c.error hrec
      have hmk : (mkMessage c.now c.direction c.content
          c.execution_time c.error).execution_time = some t := by
        simpa [mkMessage] using ht
      obtain ⟨htot, havg⟩ := update_metrics_timed i.performance_metrics
        (mkMessage c.now c.direction c.content c.execution_time c.error)
        t hmk ht0
      obtain ⟨stot, savg⟩ := ih
        (log_message c.now i c.direction c.content c.execution_time c.error)
        hrec' (fun c' hc' => hall c' (by simp [hc']))
      have hN : ((i.performance_metrics.total_messages : ℚ) + 1) ≠ 0 := by
        have := i.performance_metrics.total_messages.cast_add_one_pos (α := ℚ)
        exact ne_of_gt this
      constructor
      · show (runCalls (log_message c.now i c.direction c.content
          c.execution_time c.error) cs).performance_metrics.total_messages = _
        rw [stot, hmet, htot]
        simp only [List.length_cons]
        omega
      · show (runCalls (log_message c.now i c.direction c.content
          c.execution_time c.error) cs).performance_metrics.avg_response_time
            * _ = _
        rw [hmet, htot, havg] at savg
        have hcast : ((i.performance_metrics.total_messages + 1 : Nat) : ℚ)
            = (i.performance_metrics.total_messages : ℚ) + 1 := by push_cast; ring
        rw [hcast] at savg
        have hlen : (((c :: cs).length : ℚ))
            = (cs.length : ℚ) + 1 := by push_cast [List.length_cons]; ring
        rw [hlen]
        have hsum : ((c :: cs).map fun c => c.execution_time.getD 0).sum
            = t + (cs.map fun c => c.execution_time.getD 0).sum := by
          simp [ht]
        rw [hsum]
        have key : (i.performance_metrics.avg_response_time *
              (i.performance_metrics.total_messages : ℚ) + t)
            / ((i.performance_metrics.total_messages : ℚ) + 1)
            * ((i.performance_metrics.total_messages : ℚ) + 1)
          = i.performance_metrics.avg_response_time *
              (i.performance_metrics.total_messages : ℚ) + t :=
          div_mul_cancel₀ _ hN
        calc (runCalls (log_message c.now i c.direction c.content
                c.execution_time c.error) cs).performance_metrics.avg_response_time
              * ((i.performance_metrics.total_messages : ℚ)
                  + ((cs.length : ℚ) + 1))
            = (runCalls (log_message c.now i c.direction c.content
                c.execution_time c.error) cs).performance_metrics.avg_response_time
              * (((i.performance_metrics.total_messages : ℚ) + 1)
                  + (cs.length : ℚ)) := by ring
          _ = (i.performance_metrics.avg_response_time *
                (i.performance_metrics.total_messages : ℚ) + t)
              / ((i.performance_metrics.total_messages : ℚ) + 1)
              * ((i.performance_metrics.total_messages : ℚ) + 1)
              + (cs.map fun c => c.execution_time.getD 0).sum := savg
          _ = i.performance_metrics.avg_response_time *
                (i.performance_metrics.total_messages : ℚ)
              + (t + (cs.map fun c => c.execution_time.getD 0).sum) := by
              rw [key]; ring

/-- With every call timed, `filterMap` over the recorded times is the
full `map`. -/
theorem filterMap_times_eq_map (calls : List LogCall)
    (h : ∀ c ∈ calls, c.execution_time.getD 0 ≠ 0) :
    calls.filterMap (fun c => c.execution_time)
      = calls.map fun c => c.execution_time.getD 0 := by
  induction calls with
  | nil => rfl
  | cons c cs ih =>
      have hc : c.execution_time.getD 0 ≠ 0 := h c (by simp)
      rcases hx : c.execution_time with _ | t
      · rw [hx] at hc; simp at hc
      · simp only [List.filterMap_cons, List.map_cons, hx, Option.getD_some]
        rw [ih (fun c' hc' => h c' (by simp [hc']))]

/-- C2 (counterexample): the sequence "time 10, no time, time 20" drives
`avg_response_time` to `(10·2 + 20)/3 = 40/3`, while the mean of the
recorded times is `15` — the update divides by `total_messages`, which
also counts messages that carry no execution time. -/
theorem C2_counterexample :
    (runCalls {} [{ execution_time := some 10 }, {},
        { execution_time := some 20 }]).performance_metrics.avg_response_time
      ≠ specMeanExecTimes [{ execution_time := some 10 }, {},
        { execution_time := some 20 }] := by
  have h1 : (runCalls {} [{ execution_time := some 10 }, {},
      { execution_time := some 20 }]).performance_metrics.avg_response_time
      = 40 / 3 := by
    norm_num [runCalls, log_message, mkMessage, update_metrics, errTruthy,
      JValue.getOpt, JValue.getD, JValue.lookup, JValue.truthy, lookupField,
      statsLookup, statsSet]
  have h2 : specMeanExecTimes [{ execution_time := some 10 }, {},
      { execution_time := some 20 }] = 15 := by
    norm_num [specMeanExecTimes, List.filterMap_cons]
  rw [h1, h2]
  norm_num

/-- C2 (amended): when every logged message carries a present, nonzero
execution time (recording on, as constructed), `avg_response_time`
equals the arithmetic mean of the recorded execution times exactly, at
every point of the run.  With untimed messages interleaved the equality
fails (`C2_counterexample`), because the divisor is the count of all
messages. -/
theorem C2_avg_is_mean (calls : List LogCall)
    (h : ∀ c ∈ calls, c.execution_time.getD 0 ≠ 0) :
    (runCalls {} calls).performance_metrics.avg_response_time
      = specMeanExecTimes calls := by
  obtain ⟨-, havg⟩ := runCalls_avg_inv calls {} rfl h
  by_cases hemp : calls = []
  · subst hemp
    simp [runCalls, specMeanExecTimes]
  · have hlen : (calls.length : ℚ) ≠ 0 := by
      have : calls.length ≠ 0 := fun hh => hemp (List.length_eq_zero.mp hh)
      exact_mod_cast Nat.cast_ne_zero.mpr this
    have havg' : (runCalls {} calls).performance_metrics.avg_response_time *
        (calls.length : ℚ)
        = (calls.map fun c => c.execution_time.getD 0).sum := by
      simpa using havg
    have hspec : specMeanExecTimes calls
        = (calls.map fun c => c.execution_time.getD 0).sum
            / (calls.length : ℚ) := by
      unfold specMeanExecTimes
      rw [filterMap_times_eq_map calls h]
      simp [List.length_map]
    rw [hspec, eq_div_iff hlen]
    exact havg'

/-- C2 witness: two timed messages, 4 ms and 6 ms, average 5 ms. -/
theorem C2_avg_is_mean_witness :
    (∀ c ∈ [({ execution_time := some 4 } : LogCall),
        { execution_time := some 6 }], c.execution_time.getD 0 ≠ 0) ∧
    (runCalls {} [({ execution_time := some 4 } : LogCall),
        { execution_time := some 6 }]).performance_metrics.avg_response_time
      = specMeanExecTimes [({ execution_time := some 4 } : LogCall),
          { execution_time := some 6 }] :=
  ⟨by
    intro c hc
    simp only [List.mem_cons, List.not_mem_nil, or_false] at hc
    rcases hc with rfl | rfl <;> norm_num,
   C2_avg_is_mean [{ execution_time := some 4 }, { execution_time := some 6 }]
     (by
      intro c hc
      simp only [List.mem_cons, List.not_mem_nil, or_false] at hc
      rcases hc with rfl | rfl <;> norm_num)⟩

end JesterMCP
